import Mathlib

/-!
Verification development for the server-health-api repository (Go).

The Go program `main.go` exposes `GET /healthy`: it probes configured TCP
ports, systemd services and HTTP endpoints, and aggregates per-target
pass/fail messages into one JSON response.  External effects (TCP dial,
subprocess query of systemctl, HTTP GET) are modelled by an oracle
structure `Env`; everything else is a direct translation of the Go code.
-/

namespace ServerHealth

/-- Go type `Service` (main.go): a systemd service with its expected status. -/
structure Service where
  name : String
  status : String
deriving DecidableEq

/-- Go type `Port` (main.go): a TCP target.  Go `int` is modelled as `Int`. -/
structure Port where
  name : String
  address : String
  port : Int
deriving DecidableEq

/-- Go type `Endpoint` (main.go): an HTTP(S) target with acceptable statuses. -/
structure Endpoint where
  name : String
  url : String
  status : Int
  statuses : List Int
deriving DecidableEq

/-- The `auth` block of Go type `AppConfig`. -/
structure AuthConfig where
  enabled : Bool
  username : String
  password : String
deriving DecidableEq

/-- The `listen` block of Go type `AppConfig`. -/
structure ListenConfig where
  host : String
  port : Int
deriving DecidableEq

/-- The `ssl` block of Go type `AppConfig`. -/
structure SSLConfig where
  enabled : Bool
  certFile : String
  keyFile : String
deriving DecidableEq

/-- Go type `AppConfig` (main.go). -/
structure AppConfig where
  listen : ListenConfig
  ssl : SSLConfig
  auth : AuthConfig
deriving DecidableEq

/-- Go type `Config` (main.go): app config plus the three target lists. -/
structure Config where
  config : AppConfig
  services : List Service
  ports : List Port
  endpoints : List Endpoint
deriving DecidableEq

/-- Result of `exec.Command("systemctl", "is-active", name).Output()`:
the raw stdout text and whether the call returned an error. -/
structure SvcQueryResult where
  output : String
  err : Bool

/-- Oracle for the program's external effects.  `dialOk a p` is success of
`net.DialTimeout("tcp", net.JoinHostPort(a, itoa p), 1s)` (the JoinHostPort
formatting is absorbed into the oracle); `httpGet` / `httpsGet` are the GET
results of the plain and the TLS-skipping client (`none` = transport error,
`some c` = response with status code `c`). -/
structure Env where
  svcQuery : String → SvcQueryResult
  dialOk : String → Int → Bool
  httpGet : String → Option Int
  httpsGet : String → Option Int

/-- One character of Go's `serviceNameRegex` class `[a-zA-Z0-9@:._-]`. -/
def serviceNameCharOk (c : Char) : Bool :=
  c.isAlpha || c.isDigit || c == '@' || c == ':' || c == '.' || c == '_' || c == '-'

/-- Go `serviceNameRegex.MatchString`: the regex is anchored (`^...+$`) so a
name matches iff it is nonempty and every character is in the class. -/
def serviceNameMatch (s : String) : Bool :=
  !s.data.isEmpty && s.data.all serviceNameCharOk

/-- Whether the first list is an initial segment of the second. -/
def listIsInit : List Char → List Char → Bool
  | [], _ => true
  | _ :: _, [] => false
  | c :: cs, d :: ds => c == d && listIsInit cs ds

/-- Go `strings.HasPrefix(url, "https://")`: the pattern is ASCII, so the
byte-level test of Go coincides with this character-level one. -/
def hasHttpsScheme (url : String) : Bool :=
  listIsInit "https://".data url.data

/-- Drop leading whitespace characters. -/
def dropLeadingWS : List Char → List Char
  | [] => []
  | c :: cs => if c.isWhitespace then dropLeadingWS cs else c :: cs

/-- Go `strings.TrimSpace`: strip whitespace from both ends. -/
def trimSpace (s : String) : String :=
  String.mk ((dropLeadingWS (dropLeadingWS s.data).reverse).reverse)

/-- Go function `contains(numbers []int, target int) bool` (main.go). -/
def contains (numbers : List Int) (target : Int) : Bool :=
  match numbers with
  | [] => false
  | num :: rest => if num == target then true else contains rest target

/-- Loop body of Go `checkServices` (main.go): returns the error count, the
messages appended by the loop (in iteration order), and the list of names
with which the `systemctl is-active` subprocess was invoked (recorded exactly
at the `exec.Command` call site, i.e. only after the regex check passes). -/
def checkServicesLoop (env : Env) : List Service → Nat × List String × List String
  | [] => (0, [], [])
  | service :: rest =>
    let (errRest, msgsRest, invokedRest) := checkServicesLoop env rest
    if !serviceNameMatch service.name then
      (1 + errRest, ("Service Name: " ++ service.name ++ " is invalid") :: msgsRest,
       invokedRest)
    else
      let q := env.svcQuery service.name
      let status := trimSpace q.output
      if q.err || status != service.status then
        (1 + errRest,
         ("Service Name: " ++ service.name ++ ", Expected Status: " ++ service.status
            ++ ", Actual Status: " ++ status) :: msgsRest,
         service.name :: invokedRest)
      else
        (errRest,
         ("Service Name: " ++ service.name ++ ", Status: " ++ service.status
            ++ " is as expected") :: msgsRest,
         service.name :: invokedRest)

/-- Go `checkServices(services, &messages) bool`: appends one message per
target to `messages` and returns `errCount == 0`. -/
def checkServices (env : Env) (services : List Service) (messages : List String) :
    Bool × List String :=
  let r := checkServicesLoop env services
  (r.1 == 0, messages ++ r.2.1)

/-- The subprocess invocations performed by `checkServices` on this list. -/
def invokedServiceNames (env : Env) (services : List Service) : List String :=
  (checkServicesLoop env services).2.2

/-- Loop body of Go `checkPorts` (main.go). -/
def checkPortsLoop (env : Env) : List Port → Nat × List String
  | [] => (0, [])
  | port :: rest =>
    let (errRest, msgsRest) := checkPortsLoop env rest
    if !env.dialOk port.address port.port then
      (1 + errRest,
       ("Port Name: " ++ port.name ++ ", Port: " ++ toString port.port
          ++ " is not available") :: msgsRest)
    else
      (errRest,
       ("Port Name: " ++ port.name ++ ", Port: " ++ toString port.port
          ++ " is available") :: msgsRest)

/-- Go `checkPorts(ports, &messages) bool`. -/
def checkPorts (env : Env) (ports : List Port) (messages : List String) :
    Bool × List String :=
  let r := checkPortsLoop env ports
  (r.1 == 0, messages ++ r.2)

/-- Scheme selection and GET of Go `checkEndpoints`: the TLS-skipping client
is used iff the URL starts with `https://`. -/
def endpointResp (env : Env) (e : Endpoint) : Option Int :=
  if hasHttpsScheme e.url then env.httpsGet e.url else env.httpGet e.url

/-- Loop body of Go `checkEndpoints` (main.go). -/
def checkEndpointsLoop (env : Env) : List Endpoint → Nat × List String
  | [] => (0, [])
  | endpoint :: rest =>
    let (errRest, msgsRest) := checkEndpointsLoop env rest
    match endpointResp env endpoint with
    | none =>
      (1 + errRest,
       ("Endpoint Name: " ++ endpoint.name ++ ", URL: " ++ endpoint.url
          ++ " is not reachable") :: msgsRest)
    | some code =>
      let statuses := endpoint.statuses ++ [endpoint.status]
      if contains statuses code then
        (errRest,
         ("Endpoint Name: " ++ endpoint.name ++ ", URL: " ++ endpoint.url
            ++ ", Status: " ++ toString code ++ " is as expected") :: msgsRest)
      else
        (1 + errRest,
         ("Endpoint Name: " ++ endpoint.name ++ ", URL: " ++ endpoint.url
            ++ ", Status: " ++ toString endpoint.status ++ " is not as expected, got: "
            ++ toString code) :: msgsRest)

/-- Go `checkEndpoints(endpoints, &messages) bool`. -/
def checkEndpoints (env : Env) (endpoints : List Endpoint) (messages : List String) :
    Bool × List String :=
  let r := checkEndpointsLoop env endpoints
  (r.1 == 0, messages ++ r.2)

/-- The JSON response of the `/healthy` handler together with the HTTP status
code written by `w.WriteHeader`. -/
structure HealthResponse where
  httpStatus : Nat
  status : String
  messages : List String
deriving DecidableEq

/-- The condition of the handler, `!checkPorts(...) || !checkServices(...) ||
!checkEndpoints(...)`, evaluated with Go's short-circuit semantics: a later
checker runs only if every earlier one returned true.  Returns the final
verdict and the request-local message buffer. -/
def runHealthChecks (env : Env) (config : Config) : Bool × List String :=
  let messages : List String := []
  let (portsOk, messages) := checkPorts env config.ports messages
  if !portsOk then (false, messages)
  else
    let (servicesOk, messages) := checkServices env config.services messages
    if !servicesOk then (false, messages)
    else checkEndpoints env config.endpoints messages

/-- The `/healthy` handler body (main.go, inside `main`): 200 and
"Server is healthy" when the condition is false, 500 and
"Server is unhealthy" when it is true. -/
def healthyHandler (env : Env) (config : Config) : HealthResponse :=
  let (ok, messages) := runHealthChecks env config
  if ok then ⟨200, "Server is healthy", messages⟩
  else ⟨500, "Server is unhealthy", messages⟩

/-- HTTP Basic credentials as extracted by Go `r.BasicAuth()`; `none` models
a request with a missing or malformed Authorization header (`ok == false`). -/
structure BasicCreds where
  username : String
  password : String
deriving DecidableEq

/-- Go `r.BasicAuth() (username, password string, ok bool)`. -/
def basicAuth (creds : Option BasicCreds) : String × String × Bool :=
  match creds with
  | some c => (c.username, c.password, true)
  | none => ("", "", false)

/-- Functional model of `subtle.ConstantTimeCompare(x, y) == 1`: true iff the
two byte strings are equal.  (The timing behaviour itself is outside this
embedding.) -/
def constantTimeCompareEq (x y : String) : Bool := x == y

/-- Outcome of one request through the middleware: either rejected before the
handler (with the WWW-Authenticate header value, the body text and the HTTP
status), or handled with a health response. -/
inductive RequestOutcome where
  | rejected (wwwAuthenticate : String) (body : String) (httpStatus : Nat)
  | handled (response : HealthResponse)
deriving DecidableEq

/-- Go `basicAuthMiddleware` (main.go) applied to the `/healthy` handler. -/
def basicAuthMiddleware (authConfig : AuthConfig) (creds : Option BasicCreds)
    (env : Env) (config : Config) : RequestOutcome :=
  if authConfig.enabled then
    let (username, password, ok) := basicAuth creds
    let userMatch := constantTimeCompareEq username authConfig.username
    let passMatch := constantTimeCompareEq password authConfig.password
    if !ok || !userMatch || !passMatch then
      .rejected "Basic realm=\"Restricted\"" "Unauthorized" 401
    else .handled (healthyHandler env config)
  else .handled (healthyHandler env config)

/-- Port-range and URL validation loop over `c.Ports` in Go
`Config.Validate` (main.go). -/
def validatePorts : List Port → Except String Unit
  | [] => .ok ()
  | port :: rest =>
    if port.port < 1 || port.port > 65535 then
      .error ("invalid port: " ++ toString port.port ++ " for " ++ port.name)
    else validatePorts rest

/-- URL validation loop over `c.Endpoints` in Go `Config.Validate`.
`urlParseOk u` models `url.Parse(u)` succeeding (stdlib collaborator). -/
def validateEndpoints (urlParseOk : String → Bool) : List Endpoint → Except String Unit
  | [] => .ok ()
  | endpoint :: rest =>
    if !urlParseOk endpoint.url then .error ("invalid URL " ++ endpoint.url)
    else validateEndpoints urlParseOk rest

/-- Go `Config.Validate` (main.go): listen-port range, each port's range,
each endpoint URL parseable; returns the first failure. -/
def validate (urlParseOk : String → Bool) (c : Config) : Except String Unit :=
  if c.config.listen.port < 1 || c.config.listen.port > 65535 then
    .error ("invalid listen port: " ++ toString c.config.listen.port)
  else
    match validatePorts c.ports with
    | .error e => .error e
    | .ok _ => validateEndpoints urlParseOk c.endpoints

/-- Go `readConfig` (main.go): file read plus YAML unmarshal are modelled by
the `loaded` argument (`.error` = read or unmarshal failure); a loaded config
is then validated, a validation failure being wrapped as "invalid config". -/
def readConfig (loaded : Except String Config) (urlParseOk : String → Bool) :
    Except String Config :=
  match loaded with
  | .error e => .error e
  | .ok config =>
    match validate urlParseOk config with
    | .error e => .error ("invalid config: " ++ e)
    | .ok _ => .ok config

/-- Startup gate in Go `main`: on a `readConfig` error the process calls
`log.Fatalf` and never registers the handler or serves. -/
def serverStarts (loaded : Except String Config) (urlParseOk : String → Bool) : Bool :=
  match readConfig loaded urlParseOk with
  | .error _ => false
  | .ok _ => true

/-- Whether an `Except` is a success. -/
def exceptOk {ε α : Type} : Except ε α → Bool
  | .error _ => false
  | .ok _ => true

/-! Derived per-target views of the checker loops, used to state properties;
each mirrors one iteration of the corresponding Go loop. -/

/-- One service target passes: valid name, no query error, trimmed status
equal to the expected one. -/
def servicePass (env : Env) (service : Service) : Bool :=
  serviceNameMatch service.name &&
    !(env.svcQuery service.name).err &&
    (trimSpace (env.svcQuery service.name).output == service.status)

/-- The single message one service target contributes. -/
def serviceMessage (env : Env) (service : Service) : String :=
  if !serviceNameMatch service.name then
    "Service Name: " ++ service.name ++ " is invalid"
  else if (env.svcQuery service.name).err
      || (trimSpace (env.svcQuery service.name).output != service.status) then
    "Service Name: " ++ service.name ++ ", Expected Status: " ++ service.status
      ++ ", Actual Status: " ++ trimSpace (env.svcQuery service.name).output
  else
    "Service Name: " ++ service.name ++ ", Status: " ++ service.status
      ++ " is as expected"

/-- One port target passes: the TCP dial succeeded. -/
def portPass (env : Env) (port : Port) : Bool :=
  env.dialOk port.address port.port

/-- The single message one port target contributes. -/
def portMessage (env : Env) (port : Port) : String :=
  if !env.dialOk port.address port.port then
    "Port Name: " ++ port.name ++ ", Port: " ++ toString port.port ++ " is not available"
  else
    "Port Name: " ++ port.name ++ ", Port: " ++ toString port.port ++ " is available"

/-- One endpoint target passes: a response arrived and its code is in
`statuses ++ [status]`. -/
def endpointPass (env : Env) (endpoint : Endpoint) : Bool :=
  match endpointResp env endpoint with
  | none => false
  | some code => contains (endpoint.statuses ++ [endpoint.status]) code

/-- The single message one endpoint target contributes. -/
def endpointMessage (env : Env) (endpoint : Endpoint) : String :=
  match endpointResp env endpoint with
  | none => "Endpoint Name: " ++ endpoint.name ++ ", URL: " ++ endpoint.url
      ++ " is not reachable"
  | some code =>
    if contains (endpoint.statuses ++ [endpoint.status]) code then
      "Endpoint Name: " ++ endpoint.name ++ ", URL: " ++ endpoint.url
        ++ ", Status: " ++ toString code ++ " is as expected"
    else
      "Endpoint Name: " ++ endpoint.name ++ ", URL: " ++ endpoint.url
        ++ ", Status: " ++ toString endpoint.status ++ " is not as expected, got: "
        ++ toString code

/-- All port targets pass. -/
def portsAllPass (env : Env) (ports : List Port) : Bool :=
  ports.all (portPass env)

/-- All service targets pass. -/
def servicesAllPass (env : Env) (services : List Service) : Bool :=
  services.all (servicePass env)

/-- All endpoint targets pass. -/
def endpointsAllPass (env : Env) (endpoints : List Endpoint) : Bool :=
  endpoints.all (endpointPass env)

/-- Every configured target of every kind passes. -/
def allTargetsPass (env : Env) (cfg : Config) : Bool :=
  portsAllPass env cfg.ports && servicesAllPass env cfg.services
    && endpointsAllPass env cfg.endpoints

/-! Characterization lemmas for the checker loops. -/

theorem checkPortsLoop_fst (env : Env) (ports : List Port) :
    ((checkPortsLoop env ports).1 == 0) = portsAllPass env ports := by
  induction ports with
  | nil => rfl
  | cons p rest ih =>
    simp only [portsAllPass, List.all_cons] at ih ⊢
    simp only [checkPortsLoop]
    cases hp : env.dialOk p.address p.port
    · simp [portPass, hp]
    · simp [portPass, hp, ih]

theorem checkPortsLoop_snd (env : Env) (ports : List Port) :
    (checkPortsLoop env ports).2 = ports.map (portMessage env) := by
  induction ports with
  | nil => rfl
  | cons p rest ih =>
    simp only [checkPortsLoop, portMessage, List.map_cons]
    cases hp : env.dialOk p.address p.port <;> simp [hp, ih]

theorem checkPorts_eq (env : Env) (ports : List Port) (messages : List String) :
    checkPorts env ports messages =
      (portsAllPass env ports, messages ++ ports.map (portMessage env)) := by
  simp only [checkPorts]
  rw [← checkPortsLoop_fst, ← checkPortsLoop_snd]

theorem checkServicesLoop_fst (env : Env) (services : List Service) :
    ((checkServicesLoop env services).1 == 0) = servicesAllPass env services := by
  induction services with
  | nil => rfl
  | cons s rest ih =>
    simp only [servicesAllPass, List.all_cons] at ih ⊢
    simp only [checkServicesLoop]
    cases hn : serviceNameMatch s.name
    · simp [servicePass, hn]
    · cases he : (env.svcQuery s.name).err
      · by_cases hst : trimSpace (env.svcQuery s.name).output = s.status
        · simp [servicePass, hn, he, hst, ih]
        · have hb : (trimSpace (env.svcQuery s.name).output == s.status) = false := by
            simp [hst]
          simp [servicePass, hn, he, hst, hb]
      · simp [servicePass, hn, he]

theorem checkServicesLoop_snd (env : Env) (services : List Service) :
    (checkServicesLoop env services).2.1 = services.map (serviceMessage env) := by
  induction services with
  | nil => rfl
  | cons s rest ih =>
    simp only [checkServicesLoop, serviceMessage, List.map_cons]
    cases hn : serviceNameMatch s.name
    · simp [hn, ih]
    · cases he : (env.svcQuery s.name).err
      · by_cases hst : trimSpace (env.svcQuery s.name).output = s.status
        · simp [hn, he, hst, ih]
        · simp [hn, he, hst, ih]
      · simp [hn, he, ih]

theorem checkServices_eq (env : Env) (services : List Service) (messages : List String) :
    checkServices env services messages =
      (servicesAllPass env services, messages ++ services.map (serviceMessage env)) := by
  simp only [checkServices]
  rw [← checkServicesLoop_fst, ← checkServicesLoop_snd]

theorem checkEndpointsLoop_fst (env : Env) (endpoints : List Endpoint) :
    ((checkEndpointsLoop env endpoints).1 == 0) = endpointsAllPass env endpoints := by
  induction endpoints with
  | nil => rfl
  | cons e rest ih =>
    simp only [endpointsAllPass, List.all_cons] at ih ⊢
    simp only [checkEndpointsLoop]
    cases hr : endpointResp env e with
    | none => simp [endpointPass, hr]
    | some code =>
      cases hc : contains (e.statuses ++ [e.status]) code
      · simp [endpointPass, hr, hc]
      · simp [endpointPass, hr, hc, ih]

theorem checkEndpointsLoop_snd (env : Env) (endpoints : List Endpoint) :
    (checkEndpointsLoop env endpoints).2 = endpoints.map (endpointMessage env) := by
  induction endpoints with
  | nil => rfl
  | cons e rest ih =>
    simp only [checkEndpointsLoop, endpointMessage, List.map_cons]
    cases hr : endpointResp env e with
    | none => simp [hr, ih]
    | some code =>
      cases hc : contains (e.statuses ++ [e.status]) code <;> simp [hr, hc, ih]

theorem checkEndpoints_eq (env : Env) (endpoints : List Endpoint) (messages : List String) :
    checkEndpoints env endpoints messages =
      (endpointsAllPass env endpoints, messages ++ endpoints.map (endpointMessage env)) := by
  simp only [checkEndpoints]
  rw [← checkEndpointsLoop_fst, ← checkEndpointsLoop_snd]

/-- Master equation for one request: the verdict is the conjunction over all
targets, and the message buffer holds the port messages, then (only when all
ports passed) the service messages, then (only when all ports and services
passed) the endpoint messages. -/
theorem runHealthChecks_eq (env : Env) (cfg : Config) :
    runHealthChecks env cfg =
      (allTargetsPass env cfg,
       cfg.ports.map (portMessage env)
         ++ (if portsAllPass env cfg.ports
             then cfg.services.map (serviceMessage env) else [])
         ++ (if portsAllPass env cfg.ports && servicesAllPass env cfg.services
             then cfg.endpoints.map (endpointMessage env) else [])) := by
  simp only [runHealthChecks, checkPorts_eq, checkServices_eq, checkEndpoints_eq,
    allTargetsPass]
  cases hp : portsAllPass env cfg.ports
  · simp
  · cases hs : servicesAllPass env cfg.services
    · simp
    · simp

/-! Abstraction of the handler pipeline as a list of checker kinds, used to
reason about reorderings of the three checkers. -/

/-- The three checker kinds. -/
inductive CheckerKind where
  | ports
  | services
  | endpoints
deriving DecidableEq

/-- Run one checker of the given kind against the config's targets. -/
def runChecker (env : Env) (cfg : Config) (k : CheckerKind) (messages : List String) :
    Bool × List String :=
  match k with
  | .ports => checkPorts env cfg.ports messages
  | .services => checkServices env cfg.services messages
  | .endpoints => checkEndpoints env cfg.endpoints messages

/-- Whether all targets of one kind pass. -/
def checkerPass (env : Env) (cfg : Config) : CheckerKind → Bool
  | .ports => portsAllPass env cfg.ports
  | .services => servicesAllPass env cfg.services
  | .endpoints => endpointsAllPass env cfg.endpoints

/-- Run checkers in the given order with the handler's short-circuit
semantics: a later checker runs only if every earlier one returned true. -/
def runChecksInOrder (env : Env) (cfg : Config) :
    List CheckerKind → List String → Bool × List String
  | [], messages => (true, messages)
  | k :: rest, messages =>
    let r := runChecker env cfg k messages
    if !r.1 then (false, r.2)
    else runChecksInOrder env cfg rest r.2

/-- The order hard-coded in the handler: ports, services, endpoints. -/
def checkerOrder : List CheckerKind := [.ports, .services, .endpoints]

theorem runChecksInOrder_default (env : Env) (cfg : Config) :
    runChecksInOrder env cfg checkerOrder [] = runHealthChecks env cfg := by
  simp only [checkerOrder, runChecksInOrder, runChecker, runHealthChecks,
    checkPorts_eq, checkServices_eq, checkEndpoints_eq]
  cases hp : portsAllPass env cfg.ports
  · simp
  · cases hs : servicesAllPass env cfg.services
    · simp
    · cases he : endpointsAllPass env cfg.endpoints <;> simp

theorem runChecker_fst (env : Env) (cfg : Config) (k : CheckerKind)
    (messages : List String) :
    (runChecker env cfg k messages).1 = checkerPass env cfg k := by
  cases k <;>
    simp [runChecker, checkerPass, checkPorts_eq, checkServices_eq, checkEndpoints_eq]

theorem runChecksInOrder_fst (env : Env) (cfg : Config) (order : List CheckerKind)
    (messages : List String) :
    (runChecksInOrder env cfg order messages).1 = order.all (checkerPass env cfg) := by
  induction order generalizing messages with
  | nil => rfl
  | cons k rest ih =>
    simp only [runChecksInOrder, List.all_cons]
    cases hk : checkerPass env cfg k
    · simp [runChecker_fst, hk]
    · simp [runChecker_fst, hk, ih]

/-- `List.all` is invariant under permutation. -/
theorem all_eq_of_perm {α : Type} (p : α → Bool) {l₁ l₂ : List α}
    (h : List.Perm l₁ l₂) : l₁.all p = l₂.all p := by
  induction h with
  | nil => rfl
  | cons x _ ih => simp [List.all_cons, ih]
  | swap x y l => simp [List.all_cons, Bool.and_left_comm]
  | trans _ _ ih₁ ih₂ => rw [ih₁, ih₂]

/-! Concrete environments and configurations for counterexamples and
witnesses. -/

/-- An environment in which every probe fails: the subprocess errors, every
dial fails, every GET has a transport error. -/
def envAllFail : Env :=
  ⟨fun _ => ⟨"inactive", true⟩, fun _ _ => false, fun _ => none, fun _ => none⟩

/-- An environment in which every probe succeeds with status "active" and
HTTP code 200. -/
def envAllPass : Env :=
  ⟨fun _ => ⟨"active", false⟩, fun _ _ => true, fun _ => some 200, fun _ => some 200⟩

/-- A fixed app config (listen, ssl, auth) for concrete examples. -/
def appConfigDefault : AppConfig :=
  ⟨⟨"0.0.0.0", 8080⟩, ⟨false, "", ""⟩, ⟨false, "", ""⟩⟩

/-- One failing port plus one service: under short-circuiting the service
checker never runs. -/
def cfgPortAndService : Config :=
  ⟨appConfigDefault, [⟨"svc", "active"⟩], [⟨"p", "127.0.0.1", 1⟩], []⟩

/-- C1, counterexample: with one port target (whose dial fails) and one
service target, the response holds a single message — the failing port's —
not one message per configured target: the handler's `||` short-circuits
and `checkServices` never runs. -/
theorem message_count_short_circuit_counterexample :
    ¬ ((healthyHandler envAllFail cfgPortAndService).messages.length
        = cfgPortAndService.services.length + cfgPortAndService.ports.length
          + cfgPortAndService.endpoints.length) := by
  decide

/-- C1 (amended): each configured target of a checker that executes
contributes exactly one message, but checkers after a failing one are
skipped: the message count is the number of ports, plus the number of
services when all ports pass, plus the number of endpoints when all ports
and services pass.  In particular it equals the total number of configured
targets whenever every target passes. -/
theorem message_count_of_executed_checkers (env : Env) (cfg : Config) :
    (healthyHandler env cfg).messages.length =
      cfg.ports.length
        + (if portsAllPass env cfg.ports then cfg.services.length else 0)
        + (if portsAllPass env cfg.ports && servicesAllPass env cfg.services
           then cfg.endpoints.length else 0) := by
  simp only [healthyHandler, runHealthChecks_eq]
  cases hok : allTargetsPass env cfg <;>
    cases hp : portsAllPass env cfg.ports <;>
      cases hs : servicesAllPass env cfg.services <;>
        simp [hp, hs, Nat.add_assoc]

/-- C2: the response is 200 with status "Server is healthy" iff every
configured target (port, service, endpoint) passes; otherwise it is 500
with status "Server is unhealthy". -/
theorem health_verdict_iff_all_targets_pass (env : Env) (cfg : Config) :
    (((healthyHandler env cfg).httpStatus = 200 ∧
        (healthyHandler env cfg).status = "Server is healthy")
      ↔ allTargetsPass env cfg = true) ∧
    (((healthyHandler env cfg).httpStatus = 500 ∧
        (healthyHandler env cfg).status = "Server is unhealthy")
      ↔ allTargetsPass env cfg = false) := by
  simp only [healthyHandler, runHealthChecks_eq]
  cases hok : allTargetsPass env cfg <;> simp

/-- `contains` is list membership. -/
theorem contains_iff_mem (numbers : List Int) (target : Int) :
    contains numbers target = true ↔ target ∈ numbers := by
  induction numbers with
  | nil => simp [contains]
  | cons num rest ih =>
    by_cases h : num = target
    · simp [contains, h]
    · simp [contains, h, ih, Ne.symm h]

/-- An endpoint target for the union-of-statuses example: status 200 with
statuses [301]. -/
def epStatusUnion : Endpoint := ⟨"ep", "http://example", 200, [301]⟩

/-- An environment whose plain HTTP client always sees status code 301. -/
def envHttp301 : Env :=
  ⟨fun _ => ⟨"", false⟩, fun _ _ => false, fun _ => some 301, fun _ => none⟩

/-- C3: when an HTTP response with code `code` is obtained for an endpoint,
a checkEndpoints run on that target passes iff `code` is in the union of the
configured `statuses` list and the single `status` (the code appends
`status` to `statuses` and tests membership with `contains`). -/
theorem endpoint_pass_iff_status_in_union (env : Env) (e : Endpoint) (code : Int)
    (h : endpointResp env e = some code) :
    ((checkEndpoints env [e] []).1 = true ↔ (code ∈ e.statuses ∨ code = e.status)) ∧
    (endpointPass env e = true ↔ (code ∈ e.statuses ∨ code = e.status)) := by
  have hmem : contains (e.statuses ++ [e.status]) code = true
      ↔ (code ∈ e.statuses ∨ code = e.status) := by
    rw [contains_iff_mem]
    simp
  constructor
  · rw [checkEndpoints_eq]
    simp [endpointsAllPass, endpointPass, h, hmem]
  · simp [endpointPass, h, hmem]

/-- C3 witness: the endpoint with status 200 and statuses [301] passes on an
actual 301 response. -/
theorem endpoint_pass_iff_status_in_union_witness :
    (checkEndpoints envHttp301 [epStatusUnion] []).1 = true :=
  ((endpoint_pass_iff_status_in_union envHttp301 epStatusUnion 301 (by decide)).1).mpr
    (by decide)

/-- Unfolding of the subprocess-invocation trace at a cons. -/
theorem invokedServiceNames_cons (env : Env) (t : Service) (rest : List Service) :
    invokedServiceNames env (t :: rest) =
      if serviceNameMatch t.name then t.name :: invokedServiceNames env rest
      else invokedServiceNames env rest := by
  simp only [invokedServiceNames, checkServicesLoop]
  cases ht : serviceNameMatch t.name
  · simp
  · simp only [Bool.not_true, Bool.false_eq_true, if_false, if_true]
    split
    · rfl
    · rfl

/-- C4: the `systemctl is-active` subprocess is only ever invoked with names
matching the allow-list regex, and a target whose name fails the regex is an
immediate failure with the "is invalid" message, its name never reaching the
subprocess. -/
theorem invalid_service_name_fails_without_subprocess (env : Env)
    (services : List Service) (s : Service) (h : serviceNameMatch s.name = false) :
    (∀ n ∈ invokedServiceNames env services, serviceNameMatch n = true) ∧
    invokedServiceNames env [s] = [] ∧
    checkServices env [s] [] = (false, ["Service Name: " ++ s.name ++ " is invalid"]) := by
  refine ⟨?_, ?_, ?_⟩
  · induction services with
    | nil => intro n hn; simp [invokedServiceNames, checkServicesLoop] at hn
    | cons t rest ih =>
      intro n hn
      rw [invokedServiceNames_cons] at hn
      by_cases ht : serviceNameMatch t.name = true
      · rw [if_pos ht] at hn
        rcases List.mem_cons.mp hn with h1 | h1
        · rw [h1]; exact ht
        · exact ih n h1
      · rw [if_neg ht] at hn
        exact ih n hn
  · rw [invokedServiceNames_cons, h]
    simp [invokedServiceNames, checkServicesLoop]
  · simp [checkServices, checkServicesLoop, h]

/-- C4 witness: a name containing shell metacharacters is rejected without
any invocation. -/
theorem invalid_service_name_fails_without_subprocess_witness :
    invokedServiceNames envAllPass [⟨"nginx; rm -rf", "active"⟩] = [] ∧
    checkServices envAllPass [⟨"nginx; rm -rf", "active"⟩] []
      = (false, ["Service Name: nginx; rm -rf is invalid"]) :=
  ⟨(invalid_service_name_fails_without_subprocess envAllPass []
      ⟨"nginx; rm -rf", "active"⟩ (by decide)).2.1,
   (invalid_service_name_fails_without_subprocess envAllPass []
      ⟨"nginx; rm -rf", "active"⟩ (by decide)).2.2⟩

/-- Authorization predicate exactly as the spec words it: if auth is
disabled, always authorize; otherwise authorize exactly when Basic
credentials are present and both username and password match the configured
values. -/
def specAuthorized (auth : AuthConfig) (creds : Option BasicCreds) : Bool :=
  !auth.enabled ||
    (match creds with
     | none => false
     | some c => c.username == auth.username && c.password == auth.password)

/-- C5: the middleware runs the checker pipeline exactly when the spec's
authorization predicate holds, and otherwise rejects with HTTP 401, header
value Basic realm "Restricted" and body "Unauthorized"; the rejected outcome
carries no health response, i.e. no checker runs. -/
theorem auth_gate_characterization (auth : AuthConfig) (creds : Option BasicCreds)
    (env : Env) (cfg : Config) :
    basicAuthMiddleware auth creds env cfg =
      if specAuthorized auth creds
      then .handled (healthyHandler env cfg)
      else .rejected "Basic realm=\"Restricted\"" "Unauthorized" 401 := by
  cases creds with
  | none =>
    cases hA : auth.enabled <;>
      simp [basicAuthMiddleware, basicAuth, specAuthorized, hA, constantTimeCompareEq]
  | some c =>
    cases hA : auth.enabled
    · simp [basicAuthMiddleware, basicAuth, specAuthorized, hA]
    · by_cases hu : c.username = auth.username
      · by_cases hpw : c.password = auth.password
        · simp [basicAuthMiddleware, basicAuth, specAuthorized, hA,
            constantTimeCompareEq, hu, hpw]
        · simp [basicAuthMiddleware, basicAuth, specAuthorized, hA,
            constantTimeCompareEq, hu, hpw]
      · simp [basicAuthMiddleware, basicAuth, specAuthorized, hA,
          constantTimeCompareEq, hu]

/-- The concrete config of the C6 scenario: a single port target, ssh on
127.0.0.1 port 22. -/
def cfgSSH : Config := ⟨appConfigDefault, [], [⟨"ssh", "127.0.0.1", 22⟩], []⟩

/-- C6: when nothing answers on 127.0.0.1:22, the response for the
ssh-port-only config contains the expected "is not available" message, the
status is "Server is unhealthy" and the HTTP status is 500. -/
theorem ssh_port_down_unhealthy (env : Env)
    (h : env.dialOk "127.0.0.1" 22 = false) :
    "Port Name: ssh, Port: 22 is not available" ∈ (healthyHandler env cfgSSH).messages ∧
    (healthyHandler env cfgSSH).status = "Server is unhealthy" ∧
    (healthyHandler env cfgSSH).httpStatus = 500 := by
  have hp : portsAllPass env cfgSSH.ports = false := by
    simp [cfgSSH, portsAllPass, portPass, h]
  have hall : allTargetsPass env cfgSSH = false := by
    simp [allTargetsPass, hp]
  have hmsg : portMessage env ⟨"ssh", "127.0.0.1", 22⟩
      = "Port Name: ssh, Port: 22 is not available" := by
    simp only [portMessage, h]
    decide
  simp only [healthyHandler, runHealthChecks_eq, hall, hp]
  simp [cfgSSH, hmsg]

/-- C6 witness: the all-failing environment realizes the scenario. -/
theorem ssh_port_down_unhealthy_witness :
    "Port Name: ssh, Port: 22 is not available"
        ∈ (healthyHandler envAllFail cfgSSH).messages ∧
    (healthyHandler envAllFail cfgSSH).status = "Server is unhealthy" ∧
    (healthyHandler envAllFail cfgSSH).httpStatus = 500 :=
  ssh_port_down_unhealthy envAllFail (by decide)

/-- A config with one port target and one endpoint target; under
`envAllFail` both fail. -/
def cfgPortAndEndpoint : Config :=
  ⟨appConfigDefault, [], [⟨"p", "h", 1⟩], [⟨"e", "http://e", 200, []⟩]⟩

/-- C7, counterexample: permuting the checker order does not merely reorder
the messages.  With a failing port and a failing endpoint, the default order
reports only the port message while the reversed order reports only the
endpoint message, so the two message lists are not permutations of each
other. -/
theorem permuted_order_changes_messages_counterexample :
    ¬ List.Perm
        (runChecksInOrder envAllFail cfgPortAndEndpoint checkerOrder []).2
        (runChecksInOrder envAllFail cfgPortAndEndpoint
          [CheckerKind.endpoints, CheckerKind.services, CheckerKind.ports] []).2 := by
  decide

/-- C7 (amended): the handler attempts the checkers in the fixed order
ports, services, endpoints, short-circuiting after the first failing
checker; the messages of the checkers that do run appear grouped in that
order, each group in configured target-list order; and for every
permutation of the checker order the verdict is unchanged — it always
equals "every target passes" — though the produced messages may differ. -/
theorem checker_order_and_verdict (env : Env) (cfg : Config)
    (order : List CheckerKind) (h : List.Perm order checkerOrder) :
    runChecksInOrder env cfg checkerOrder [] = runHealthChecks env cfg ∧
    (healthyHandler env cfg).messages =
      cfg.ports.map (portMessage env)
        ++ (if portsAllPass env cfg.ports
            then cfg.services.map (serviceMessage env) else [])
        ++ (if portsAllPass env cfg.ports && servicesAllPass env cfg.services
            then cfg.endpoints.map (endpointMessage env) else []) ∧
    (runChecksInOrder env cfg order []).1 = allTargetsPass env cfg := by
  refine ⟨runChecksInOrder_default env cfg, ?_, ?_⟩
  · simp only [healthyHandler, runHealthChecks_eq]
    cases hok : allTargetsPass env cfg <;> simp
  · rw [runChecksInOrder_fst, all_eq_of_perm _ h]
    simp [checkerOrder, checkerPass, allTargetsPass, Bool.and_assoc]

/-- C7 witness: with the order services-ports-endpoints (a permutation of
the default), the verdict still equals the all-targets conjunction. -/
theorem checker_order_and_verdict_witness :
    (runChecksInOrder envAllFail cfgPortAndEndpoint
        [CheckerKind.services, CheckerKind.ports, CheckerKind.endpoints] []).1
      = allTargetsPass envAllFail cfgPortAndEndpoint :=
  (checker_order_and_verdict envAllFail cfgPortAndEndpoint
    [CheckerKind.services, CheckerKind.ports, CheckerKind.endpoints]
    (List.Perm.swap _ _ _)).2.2

/-- Invalidity conditions exactly as the spec words them: listen port
outside [1,65535], a port target outside [1,65535], or an endpoint URL that
does not parse. -/
def specConfigInvalid (urlParseOk : String → Bool) (c : Config) : Bool :=
  (c.config.listen.port < 1 || c.config.listen.port > 65535) ||
  c.ports.any (fun p => p.port < 1 || p.port > 65535) ||
  c.endpoints.any (fun e => !urlParseOk e.url)

theorem validatePorts_ok (ports : List Port) :
    exceptOk (validatePorts ports)
      = !ports.any (fun p => p.port < 1 || p.port > 65535) := by
  induction ports with
  | nil => rfl
  | cons p rest ih =>
    cases hp : (decide (p.port < 1) || decide (p.port > 65535))
    · simp [validatePorts, hp, ih]
    · simp [validatePorts, hp, exceptOk]

theorem validateEndpoints_ok (urlParseOk : String → Bool) (endpoints : List Endpoint) :
    exceptOk (validateEndpoints urlParseOk endpoints)
      = !endpoints.any (fun e => !urlParseOk e.url) := by
  induction endpoints with
  | nil => rfl
  | cons e rest ih =>
    cases hu : urlParseOk e.url
    · simp [validateEndpoints, hu, exceptOk]
    · simp [validateEndpoints, hu, ih]

theorem validate_ok (urlParseOk : String → Bool) (c : Config) :
    exceptOk (validate urlParseOk c) = !specConfigInvalid urlParseOk c := by
  simp only [validate, specConfigInvalid]
  cases hl : (decide (c.config.listen.port < 1) || decide (c.config.listen.port > 65535))
  · have hports := validatePorts_ok c.ports
    rcases hpv : validatePorts c.ports with e | u
    · rw [hpv] at hports
      simp only [exceptOk] at hports
      simp [hl, hpv, exceptOk, ← hports]
    · rw [hpv] at hports
      simp only [exceptOk] at hports
      simp [hl, hpv, ← hports, validateEndpoints_ok]
  · simp [hl, exceptOk]

/-- C8: validation fails exactly on the spec's invalidity conditions; a
loaded config starts the server iff it is not invalid, and a config that
fails to load or validate never starts the server. -/
theorem config_validation_characterization (urlParseOk : String → Bool) (cfg : Config) :
    exceptOk (validate urlParseOk cfg) = !specConfigInvalid urlParseOk cfg ∧
    serverStarts (Except.ok cfg) urlParseOk = !specConfigInvalid urlParseOk cfg ∧
    (∀ msg : String, serverStarts (Except.error msg) urlParseOk = false) := by
  refine ⟨validate_ok urlParseOk cfg, ?_, fun msg => rfl⟩
  have h := validate_ok urlParseOk cfg
  simp only [serverStarts, readConfig]
  rcases hv : validate urlParseOk cfg with e | u
  · rw [hv] at h
    simp only [exceptOk] at h
    simp [← h]
  · rw [hv] at h
    simp only [exceptOk] at h
    simp [← h]

/-- C10: with all three target lists empty, every request yields 200 with
status "Server is healthy" and an empty message list, and each checker
returns true on an empty target list while appending no message. -/
theorem empty_targets_healthy (env : Env) (cfg : Config) (messages : List String)
    (h1 : cfg.services = []) (h2 : cfg.ports = []) (h3 : cfg.endpoints = []) :
    healthyHandler env cfg = ⟨200, "Server is healthy", []⟩ ∧
    checkPorts env [] messages = (true, messages) ∧
    checkServices env [] messages = (true, messages) ∧
    checkEndpoints env [] messages = (true, messages) := by
  refine ⟨?_, ?_, ?_, ?_⟩
  · have hall : allTargetsPass env cfg = true := by
      simp [allTargetsPass, portsAllPass, servicesAllPass, endpointsAllPass, h1, h2, h3]
    simp [healthyHandler, runHealthChecks_eq, hall, h1, h2, h3]
  · simp [checkPorts_eq, portsAllPass]
  · simp [checkServices_eq, servicesAllPass]
  · simp [checkEndpoints_eq, endpointsAllPass]

/-- The empty-target config. -/
def cfgEmpty : Config := ⟨appConfigDefault, [], [], []⟩

/-- C10 witness: even under the all-failing environment the empty config is
healthy. -/
theorem empty_targets_healthy_witness :
    healthyHandler envAllFail cfgEmpty = ⟨200, "Server is healthy", []⟩ ∧
    checkPorts envAllFail [] ["m"] = (true, ["m"]) :=
  ⟨(empty_targets_healthy envAllFail cfgEmpty [] rfl rfl rfl).1,
   (empty_targets_healthy envAllFail cfgEmpty ["m"] rfl rfl rfl).2.1⟩

end ServerHealth
